import Mathlib

/-!
Shallow embedding of `rtapi.go` (PeaStew/rtapi): a CLI that probes a list of
HTTP endpoints with a load-generation engine and emits text / JSON / PDF /
Splunk-forwarded reports.  External collaborators (the vegeta attack engine,
Go stdlib parsers, the HTTP client) are modelled as parameters of an
environment record; the control flow, default-merging, forwarding loop and
graph/tick code of `rtapi.go` itself are translated directly.
-/

namespace Rtapi

/-! ## Query-parameter records and presence-based default merging

`endpointDetails.UnmarshalJSON` / `.UnmarshalYAML` (rtapi.go:267-303) first
fill a temporary struct with the fixed defaults and then decode the input
record on top of it.  Go's decoders set exactly the fields whose keys are
present in the record (an explicit zero overwrites; an absent key leaves the
default).  We model an input record as the list of `query_parameters` fields
it contains, in order, and the decode as a left fold that assigns each
present field over the defaults. -/

/-- One `query_parameters` field present in an input record (JSON or YAML),
with the literal value it carries. -/
inductive QField
  | threads (v : ℕ)
  | maxThreads (v : ℕ)
  | connections (v : ℤ)
  | duration (v : String)
  | requestRate (v : ℤ)
  deriving DecidableEq

/-- The key of a field, used to state that a record binds each key at most
once. -/
def fieldKey : QField → ℕ
  | .threads _ => 0
  | .maxThreads _ => 1
  | .connections _ => 2
  | .duration _ => 3
  | .requestRate _ => 4

/-- `endpointQuery` (rtapi.go:41-47). -/
structure endpointQuery where
  threads : ℕ
  maxThreads : ℕ
  connections : ℤ
  duration : String
  requestRate : ℤ
  deriving DecidableEq

/-- The defaults installed before decoding (rtapi.go:269-277). -/
def defaultQuery : endpointQuery :=
  { threads := 2, maxThreads := 2, connections := 10,
    duration := "10s", requestRate := 500 }

/-- Decoding one present field assigns exactly that field. -/
def applyField (q : endpointQuery) : QField → endpointQuery
  | .threads v => { q with threads := v }
  | .maxThreads v => { q with maxThreads := v }
  | .connections v => { q with connections := v }
  | .duration v => { q with duration := v }
  | .requestRate v => { q with requestRate := v }

/-- `endpointDetails.UnmarshalJSON` / `.UnmarshalYAML` restricted to the
`query_parameters` object: start from the defaults, then assign each field
present in the record. -/
def unmarshalQuery (fields : List QField) : endpointQuery :=
  fields.foldl applyField defaultQuery

/-- The value bound to `threads` in the record, when present. -/
def findThreads : List QField → Option ℕ
  | [] => none
  | .threads v :: _ => some v
  | _ :: rest => findThreads rest

/-- The value bound to `max_threads` in the record, when present. -/
def findMaxThreads : List QField → Option ℕ
  | [] => none
  | .maxThreads v :: _ => some v
  | _ :: rest => findMaxThreads rest

/-- The value bound to `connections` in the record, when present. -/
def findConnections : List QField → Option ℤ
  | [] => none
  | .connections v :: _ => some v
  | _ :: rest => findConnections rest

/-- The value bound to `duration` in the record, when present. -/
def findDuration : List QField → Option String
  | [] => none
  | .duration v :: _ => some v
  | _ :: rest => findDuration rest

/-- The value bound to `request_rate` in the record, when present. -/
def findRequestRate : List QField → Option ℤ
  | [] => none
  | .requestRate v :: _ => some v
  | _ :: rest => findRequestRate rest

/-- A well-formed record binds each key at most once. -/
def keysNodup (fields : List QField) : Prop :=
  (fields.map fieldKey).Nodup

instance (fields : List QField) : Decidable (keysNodup fields) := by
  unfold keysNodup; infer_instance

theorem findThreads_eq_none {fields : List QField}
    (h : 0 ∉ fields.map fieldKey) : findThreads fields = none := by
  induction fields with
  | nil => rfl
  | cons f rest ih =>
    simp only [List.map_cons, List.mem_cons, not_or] at h
    cases f with
    | threads v => exact absurd rfl h.1
    | maxThreads v => exact ih h.2
    | connections v => exact ih h.2
    | duration v => exact ih h.2
    | requestRate v => exact ih h.2

theorem findMaxThreads_eq_none {fields : List QField}
    (h : 1 ∉ fields.map fieldKey) : findMaxThreads fields = none := by
  induction fields with
  | nil => rfl
  | cons f rest ih =>
    simp only [List.map_cons, List.mem_cons, not_or] at h
    cases f with
    | threads v => exact ih h.2
    | maxThreads v => exact absurd rfl h.1
    | connections v => exact ih h.2
    | duration v => exact ih h.2
    | requestRate v => exact ih h.2

theorem findConnections_eq_none {fields : List QField}
    (h : 2 ∉ fields.map fieldKey) : findConnections fields = none := by
  induction fields with
  | nil => rfl
  | cons f rest ih =>
    simp only [List.map_cons, List.mem_cons, not_or] at h
    cases f with
    | threads v => exact ih h.2
    | maxThreads v => exact ih h.2
    | connections v => exact absurd rfl h.1
    | duration v => exact ih h.2
    | requestRate v => exact ih h.2

theorem findDuration_eq_none {fields : List QField}
    (h : 3 ∉ fields.map fieldKey) : findDuration fields = none := by
  induction fields with
  | nil => rfl
  | cons f rest ih =>
    simp only [List.map_cons, List.mem_cons, not_or] at h
    cases f with
    | threads v => exact ih h.2
    | maxThreads v => exact ih h.2
    | connections v => exact ih h.2
    | duration v => exact absurd rfl h.1
    | requestRate v => exact ih h.2

theorem findRequestRate_eq_none {fields : List QField}
    (h : 4 ∉ fields.map fieldKey) : findRequestRate fields = none := by
  induction fields with
  | nil => rfl
  | cons f rest ih =>
    simp only [List.map_cons, List.mem_cons, not_or] at h
    cases f with
    | threads v => exact ih h.2
    | maxThreads v => exact ih h.2
    | connections v => exact ih h.2
    | duration v => exact ih h.2
    | requestRate v => exact absurd rfl h.1

/-- Decoding a record with distinct keys over any starting value assigns each
present field and leaves each absent field at the starting value. -/
theorem foldl_applyField (fields : List QField) (q : endpointQuery)
    (h : keysNodup fields) :
    fields.foldl applyField q =
      { threads := (findThreads fields).getD q.threads,
        maxThreads := (findMaxThreads fields).getD q.maxThreads,
        connections := (findConnections fields).getD q.connections,
        duration := (findDuration fields).getD q.duration,
        requestRate := (findRequestRate fields).getD q.requestRate } := by
  induction fields generalizing q with
  | nil => rfl
  | cons f rest ih =>
    have h' : (fieldKey f ∉ rest.map fieldKey) ∧ keysNodup rest := by
      simpa [keysNodup] using h
    cases f with
    | threads v =>
      simp only [List.foldl_cons, applyField, ih _ h'.2, findThreads,
        findMaxThreads, findConnections, findDuration, findRequestRate,
        findThreads_eq_none h'.1, Option.getD_none, Option.getD_some]
    | maxThreads v =>
      simp only [List.foldl_cons, applyField, ih _ h'.2, findThreads,
        findMaxThreads, findConnections, findDuration, findRequestRate,
        findMaxThreads_eq_none h'.1, Option.getD_none, Option.getD_some]
    | connections v =>
      simp only [List.foldl_cons, applyField, ih _ h'.2, findThreads,
        findMaxThreads, findConnections, findDuration, findRequestRate,
        findConnections_eq_none h'.1, Option.getD_none, Option.getD_some]
    | duration v =>
      simp only [List.foldl_cons, applyField, ih _ h'.2, findThreads,
        findMaxThreads, findConnections, findDuration, findRequestRate,
        findDuration_eq_none h'.1, Option.getD_none, Option.getD_some]
    | requestRate v =>
      simp only [List.foldl_cons, applyField, ih _ h'.2, findThreads,
        findMaxThreads, findConnections, findDuration, findRequestRate,
        findRequestRate_eq_none h'.1, Option.getD_none, Option.getD_some]

/-! ## Data model of the program -/

/-- `endpointTarget` (rtapi.go:34-39); headers are an ordered name→values
mapping. -/
structure endpointTarget where
  method : String
  url : String
  body : String
  header : List (String × List String)
  deriving DecidableEq

/-- The slice of `vegeta.Metrics` the program reads (latency summary and
request count); the engine that produces it is external.  The zero value is
the pre-run state of the `Metrics` field. -/
structure Metrics where
  requests : ℕ
  latenciesP99 : ℤ
  deriving DecidableEq

/-- The zero value of `Metrics` before any run. -/
def zeroMetrics : Metrics := { requests := 0, latenciesP99 := 0 }

/-- `endpointDetails` (rtapi.go:28-32). -/
structure endpointDetails where
  target : endpointTarget
  query : endpointQuery
  metrics : Metrics
  deriving DecidableEq

/-- `splunkSettings` (rtapi.go:49-53). -/
structure splunkSettings where
  url : String
  authkey : String
  source : String
  deriving DecidableEq

/-- The zero value of `splunkSettings` (used when the settings file has an
unrecognized extension). -/
def zeroSplunk : splunkSettings := { url := "", authkey := "", source := "" }

/-! ## `filepath.Ext` -/

/-- Scan of `filepath.Ext`, over the reversed character list: collect
characters until the first dot (return the dot plus what was collected) or a
path separator / the start of the string (return `[]`). -/
def extScan (acc : List Char) : List Char → List Char
  | [] => []
  | c :: rest =>
    if c = '/' then []
    else if c = '.' then '.' :: acc
    else extScan (c :: acc) rest

/-- Go's `filepath.Ext`: the suffix beginning at the final dot in the final
path element, empty if there is no dot. -/
def goExt (path : String) : String :=
  String.mk (extScan [] path.toList.reverse)

/-! ## The command-line flags and the external environment -/

/-- The CLI flags of `main` (rtapi.go:63-99).  A `StringFlag` is `none` when
unset; `c.String` of an unset flag is the empty string. -/
structure Flags where
  file : Option String
  data : Option String
  output : Option String
  print : Bool
  jsonF : Bool
  splunk : Option String
  quiet : Bool

/-- One response of the forwarding sink, as the program observes it: the
status line/code of `client.Do` and the result of `ioutil.ReadAll` on the
body. -/
structure HttpResp where
  status : ℤ
  body : Except String String

/-- Externally observable actions of one invocation.  `run` is the network
probe of one endpoint by the attack engine; `forward` is the POST of the
`i`-th endpoint's event to the Splunk sink; the rest are report emissions. -/
inductive Event
  | run (url : String)
  | printText
  | createPDF (path : String)
  | printJson
  | forward (i : ℕ)
  deriving DecidableEq

/-- The external collaborators of `main`: the stdlib/file parsers (fixing a
file system), `time.ParseDuration` (seconds, as an exact rational), the
attack engine, and the forwarding sink's response per endpoint index.
`Except.error` models a Go error return (which the program turns into
`log.Fatal`/`panic`). -/
structure Env where
  parseEndpointsJSON : String → Except String (List endpointDetails)
  parseEndpointsYAML : String → Except String (List endpointDetails)
  parseJSONString : String → Except String (List endpointDetails)
  parseSplunkJSON : String → Except String splunkSettings
  parseSplunkYAML : String → Except String splunkSettings
  parseDuration : String → Option ℚ
  attack : endpointDetails → Metrics
  sink : ℕ → Except String HttpResp

/-! ## The Splunk forwarder (rtapi.go:363-398)

For each endpoint in order the forwarder POSTs one event.  A transport
error from `client.Do` panics (fatal, aborts the rest); the response status
is never inspected; a body-read error logs and `return`s (stops the rest,
not fatal); otherwise the loop continues.  The result is the list of
endpoint indices whose event was POSTed, and the fatal panic message if
any. -/

/-- The forwarding loop from index `i` with `rem` endpoints remaining. -/
def sendAux (sink : ℕ → Except String HttpResp) : ℕ → ℕ → List ℕ × Option String
  | _, 0 => ([], none)
  | i, rem + 1 =>
    match sink i with
    | .error e => ([i], some e)
    | .ok resp =>
      match resp.body with
      | .error _ => ([i], none)
      | .ok _ =>
        let r := sendAux sink (i + 1) rem
        (i :: r.1, r.2)

/-- `sendJsonToSplunk` over `n` endpoints: which endpoint indices get their
event POSTed, and whether the loop panics. -/
def sendJsonToSplunk (n : ℕ) (sink : ℕ → Except String HttpResp) :
    List ℕ × Option String :=
  sendAux sink 0 n

/-! ## `main`'s action (rtapi.go:106-170) -/

/-- Endpoint-list resolution (rtapi.go:116-124): dispatch on the file
extension; a file whose extension is none of `.json`/`.yml`/`.yaml` is not
parsed at all and the list keeps its zero value (empty). -/
def resolveEndpoints (fl : Flags) (env : Env) :
    Except String (List endpointDetails) :=
  match fl.file with
  | some f =>
    if goExt f = ".json" then env.parseEndpointsJSON f
    else if goExt f = ".yml" ∨ goExt f = ".yaml" then env.parseEndpointsYAML f
    else .ok []
  | none =>
    match fl.data with
    | some d => env.parseJSONString d
    | none => .ok []

/-- Splunk-settings resolution (rtapi.go:126-133). -/
def resolveSplunk (fl : Flags) (env : Env) : Except String splunkSettings :=
  match fl.splunk with
  | some s =>
    if goExt s = ".json" then env.parseSplunkJSON s
    else if goExt s = ".yml" ∨ goExt s = ".yaml" then env.parseSplunkYAML s
    else .ok zeroSplunk
  | none => .ok zeroSplunk

/-- The progress-bar duration loop (rtapi.go:136-143): `time.ParseDuration`
on every spec, `log.Fatal` on the first failure. -/
def durationCheck (env : Env) : List endpointDetails → Option String
  | [] => none
  | e :: rest =>
    match env.parseDuration e.query.duration with
    | none => some ("time: invalid duration")
    | some _ => durationCheck env rest

/-- The query loop (rtapi.go:150-152) with `queryAPI` (rtapi.go:305-333)
inlined: for each endpoint in order, re-parse its duration (`log.Fatal` on
error, before any network I/O for that endpoint), run the attack (one `run`
event), and attach the resulting metrics to the spec before moving on. -/
def runAll (env : Env) :
    List endpointDetails → Except String (List endpointDetails) × List Event
  | [] => (.ok [], [])
  | e :: rest =>
    match env.parseDuration e.query.duration with
    | none => (.error ("time: invalid duration"), [])
    | some _ =>
      let m := env.attack e
      let ev := Event.run e.target.url
      match runAll env rest with
      | (.error msg, t) => (.error msg, ev :: t)
      | (.ok l, t) => (.ok ({ e with metrics := m } :: l), ev :: t)

/-- The report emitters in program order (rtapi.go:154-168): text, PDF,
JSON, Splunk forwarding. -/
def emitters (fl : Flags) (env : Env) (eps : List endpointDetails) :
    List Event × Option String :=
  let t1 : List Event := if fl.print then [.printText] else []
  let t2 : List Event :=
    match fl.output with
    | some p => [.createPDF p]
    | none => []
  let t3 : List Event := if fl.jsonF then [.printJson] else []
  match fl.splunk with
  | some _ =>
    let r := sendJsonToSplunk eps.length env.sink
    (t1 ++ t2 ++ t3 ++ r.1.map Event.forward, r.2)
  | none => (t1 ++ t2 ++ t3, none)

/-- The full `Action` closure of `main` (rtapi.go:106-170): the input-selection
and output-sink checks, endpoint and Splunk-settings resolution, the duration
check, the query loop, and the emitters.  Returns the event trace and the
fatal error (`log.Fatal`/`panic`) message, if any. -/
def runMain (fl : Flags) (env : Env) : List Event × Option String :=
  if fl.file = none ∧ fl.data = none then
    ([], some ("No data found"))
  else if fl.file.isSome ∧ fl.data.isSome then
    ([], some ("Please only use either file or data as your input source"))
  else if fl.output = none ∧ fl.print = false ∧ fl.jsonF = false ∧
      fl.splunk.getD ("") = "" then
    ([], some ("You did not specify any type of output"))
  else
    match resolveEndpoints fl env with
    | .error e => ([], some e)
    | .ok eps =>
      match resolveSplunk fl env with
      | .error e => ([], some e)
      | .ok _ =>
        match durationCheck env eps with
        | some e => ([], some e)
        | none =>
          match runAll env eps with
          | (.error e, t) => (t, some e)
          | (.ok enriched, t) =>
            let r := emitters fl env enriched
            (t ++ r.1, r.2)

/-! ## `createGraph`'s row parsing (rtapi.go:540-566)

For each endpoint, the HDR-histogram plot reporter's output is split on
newlines, the header line is dropped, `points[i]` is allocated with
`len(rows)-1` slots, and each row is whitespace-split: rows with exactly 4
fields have fields 3 and 0 parsed as floats (`log.Fatal` on parse error)
and written to `points[i][j]`; any other row is skipped.  The reporter and
`strconv.ParseFloat` are external; parsing is a parameter. -/

/-- The Unicode code points of Go's `unicode.IsSpace` (the White_Space
property). -/
def goSpaceChars : List Char :=
  ['\t', '\n', '\x0B', '\x0C', '\r', ' ', '\u0085', '\u00A0', '\u1680',
   '\u2000', '\u2001', '\u2002', '\u2003', '\u2004', '\u2005', '\u2006',
   '\u2007', '\u2008', '\u2009', '\u200A', '\u2028', '\u2029', '\u202F',
   '\u205F', '\u3000']

/-- `unicode.IsSpace`. -/
def isGoSpace (c : Char) : Bool := c ∈ goSpaceChars

/-- Accumulating scan of `strings.Fields`: split around maximal runs of
whitespace, producing no empty fields. -/
def fieldsAux (cur : List Char) : List Char → List (List Char)
  | [] => if cur.isEmpty then [] else [cur.reverse]
  | c :: rest =>
    if isGoSpace c then
      if cur.isEmpty then fieldsAux [] rest
      else cur.reverse :: fieldsAux [] rest
    else fieldsAux (c :: cur) rest

/-- Go's `strings.Fields`. -/
def goFields (s : List Char) : List (List Char) := fieldsAux [] s

/-- Go's `strings.Split` with separator `"\n"`. -/
def splitNl : List Char → List (List Char)
  | [] => [[]]
  | c :: rest =>
    if c = '\n' then [] :: splitNl rest
    else
      match splitNl rest with
      | [] => [[c]]
      | h :: t => (c :: h) :: t

/-- `strings.Split(bufferString, "\n")[1:]`: the rows after the header. -/
def graphRowsOf (s : List Char) : List (List Char) :=
  (splitNl s).drop 1

/-- `make(plotter.XYs, len(stringArray[i])-1)`: the number of allocated
point slots. -/
def allocLen (s : List Char) : ℕ :=
  (graphRowsOf s).length - 1

/-- What the loop body does with one row (rtapi.go:552-564): skip it when
its whitespace-split field count is not 4; otherwise parse fields 3 and 0
(`log.Fatal` on failure) and write the point. -/
inductive RowAction
  | skip
  | write (x y : ℚ)
  | fatal
  deriving DecidableEq

/-- The decision taken for one row, given a model `pf` of
`strconv.ParseFloat`. -/
def rowAction (pf : List Char → Option ℚ) (row : List Char) : RowAction :=
  if (goFields row).length = 4 then
    match pf ((goFields row).getD 3 []) with
    | none => .fatal
    | some x =>
      match pf ((goFields row).getD 0 []) with
      | none => .fatal
      | some y => .write x y
  else .skip

/-- The point a row contributes, if any. -/
def writeOf (pf : List Char → Option ℚ) (row : List Char) : Option (ℚ × ℚ) :=
  match rowAction pf row with
  | .write x y => some (x, y)
  | _ => none

/-- The row loop over a list of rows: `none` when a `log.Fatal` aborts the
render, otherwise one slot per row holding its written point (or nothing
when the row was skipped). -/
def renderRows (pf : List Char → Option ℚ) :
    List (List Char) → Option (List (Option (ℚ × ℚ)))
  | [] => some []
  | r :: rest =>
    match rowAction pf r with
    | .fatal => none
    | .skip => (renderRows pf rest).map (fun l => none :: l)
    | .write x y => (renderRows pf rest).map (fun l => some (x, y) :: l)

/-! ## `customYTicks.Ticks` (rtapi.go:741-760) -/

/-- `plot.Tick`: a value on the axis and its label. -/
structure Tick where
  value : ℚ
  label : String
  deriving DecidableEq

/-- The loop `for i := 0; float64(i) <= max; i += 50`, fuel-indexed; the
fuel given in `customYTicksGo` always outlasts the loop (the guard fails no
later than `i = 50*(Nat.floor (max/50) + 1)`). -/
def ticksLoop (max : ℚ) : ℕ → ℕ → List Tick
  | _, 0 => []
  | i, fuel + 1 =>
    if (i : ℚ) ≤ max then
      { value := (i : ℚ), label := toString i ++ "ms" } :: ticksLoop max (i + 50) fuel
    else []

/-- `customYTicks.Ticks`: one tick every 50ms while the value does not
exceed `max`, then the fixed real-time tick at 30ms.  The fuel
`max.num.toNat + 2` always outlasts the loop, which stops no later than
`i = 50 * (Nat.floor (max / 50) + 1)` (see `ticksLoop_eq`). -/
def customYTicksGo (max : ℚ) : List Tick :=
  ticksLoop max 0 (max.num.toNat + 2) ++
    [{ value := (30 : ℚ), label := "Real-Time -- " ++ toString (30 : ℕ) ++ "ms" }]

/-- The tick the loop emits for multiple index `j`. -/
def yTickAt (j : ℕ) : Tick :=
  { value := ((50 * j : ℕ) : ℚ), label := toString (50 * j) ++ "ms" }

/-! ## Claim C1 — presence-based default merging -/

/-- C1: for every endpoint input record (JSON or YAML), the resolved query
parameters contain exactly the fixed default in each field absent from the
record (threads=2, max_threads=2, connections=10, duration="10s",
request_rate=500) and the literal input value in each field present in the
record — including an explicit zero, since `(some v).getD d = v` also for
`v = 0`; defaulting is decided by presence, not by value. -/
theorem c1_presence_based_defaults (fields : List QField) (h : keysNodup fields) :
    unmarshalQuery fields =
      { threads := (findThreads fields).getD 2,
        maxThreads := (findMaxThreads fields).getD 2,
        connections := (findConnections fields).getD 10,
        duration := (findDuration fields).getD ("10s"),
        requestRate := (findRequestRate fields).getD 500 } :=
  foldl_applyField fields defaultQuery h

/-- Witness for C1: a record that sets `threads` to an explicit zero and
`duration` to "3s" and omits the rest resolves to the literal zero and "3s"
with all other fields at their defaults. -/
theorem c1_witness :
    keysNodup [QField.threads 0, QField.duration ("3s")] ∧
    unmarshalQuery [QField.threads 0, QField.duration ("3s")] =
      { threads := 0, maxThreads := 2, connections := 10,
        duration := "3s", requestRate := 500 } :=
  ⟨by decide, (c1_presence_based_defaults _ (by decide)).trans (by decide)⟩

/-! ## Claim C7 — the `threads ≤ max_threads` invariant is not enforced -/

/-- Counterexample to C7: the record that sets `threads := 5` and omits
`max_threads` resolves to `threads = 5 > 2 = max_threads`, so not every
resolved EndpointSpec satisfies `threads ≤ max_threads`. -/
theorem c7_counterexample :
    ¬ ((unmarshalQuery [QField.threads 5]).threads ≤
        (unmarshalQuery [QField.threads 5]).maxThreads) := by
  decide

/-- C7 amended: the resolver applies defaults field by field with no
cross-field validation, so the resolved spec satisfies
`threads ≤ max_threads` exactly when the presence-merged values do — in
particular it holds when both fields are absent (both default to 2), but
not, e.g., when `threads` is set above 2 while `max_threads` is omitted. -/
theorem c7_amended_threads_le_iff (fields : List QField) (h : keysNodup fields) :
    ((unmarshalQuery fields).threads ≤ (unmarshalQuery fields).maxThreads ↔
      (findThreads fields).getD 2 ≤ (findMaxThreads fields).getD 2) := by
  unfold unmarshalQuery
  rw [foldl_applyField fields defaultQuery h]
  exact Iff.rfl

/-- Witness for C7 (amended): on the empty record both sides of the
equivalence evaluate, and the defaults satisfy the invariant. -/
theorem c7_amended_witness :
    keysNodup ([] : List QField) ∧
    ((unmarshalQuery ([] : List QField)).threads ≤
        (unmarshalQuery ([] : List QField)).maxThreads ↔
      (findThreads ([] : List QField)).getD 2 ≤
        (findMaxThreads ([] : List QField)).getD 2) ∧
    (unmarshalQuery ([] : List QField)).threads ≤
      (unmarshalQuery ([] : List QField)).maxThreads :=
  ⟨by decide, c7_amended_threads_le_iff [] (by decide), by decide⟩

/-! ## Claim C2 — forwarding failures -/

/-- A sink that answers the second of three endpoints with HTTP status 500
(and every other endpoint with 200), always with a readable body. -/
def sink500 : ℕ → Except String HttpResp := fun i =>
  .ok { status := if i = 1 then 500 else 200, body := .ok ("ok") }

/-- Counterexample to C2: `sendJsonToSplunk` never inspects the response
status, so when the sink returns a non-2xx status on the second of three
endpoints, forwarding continues: the third endpoint's event (index 2) IS
sent and nothing is fatal. -/
theorem c2_counterexample :
    sendJsonToSplunk 3 sink500 = ([0, 1, 2], none) ∧
    2 ∈ (sendJsonToSplunk 3 sink500).1 := by
  decide

theorem sendAux_transport_abort (sink : ℕ → Except String HttpResp) :
    ∀ (rem k i : ℕ) (e : String), k < rem →
      (∀ d, d < k → ∃ r s, sink (i + d) = .ok r ∧ r.body = .ok s) →
      sink (i + k) = .error e →
      sendAux sink i rem = (List.range' i (k + 1), some e) := by
  intro rem
  induction rem with
  | zero => intro k i e hk; omega
  | succ rem ih =>
    intro k i e hk h2 h3
    cases k with
    | zero =>
      simp only [Nat.add_zero] at h3
      simp [sendAux, h3, List.range']
    | succ k =>
      obtain ⟨r, s, hr, hs⟩ := h2 0 (by omega)
      simp only [Nat.add_zero] at hr
      have hrec := ih k (i + 1) e (by omega)
        (fun d hd => by
          have := h2 (d + 1) (by omega)
          simpa [Nat.add_comm, Nat.add_assoc, Nat.add_left_comm] using this)
        (by simpa [Nat.add_comm, Nat.add_assoc, Nat.add_left_comm] using h3)
      simp [sendAux, hr, hs, hrec, List.range']

/-- C2 amended: a transport-level failure (`client.Do` returning an error)
while forwarding one event is fatal (panic) and aborts all remaining
forwarding — with a transport failure on endpoint `k`, exactly endpoints
`0..k` are POSTed and no later endpoint's event is ever sent.  A non-2xx
response status, by contrast, is never detected (see the counterexample),
and a body-read failure stops the remaining forwarding without a fatal
exit. -/
theorem c2_amended_transport_abort (n k : ℕ) (sink : ℕ → Except String HttpResp)
    (e : String) (h1 : k < n)
    (h2 : ∀ d, d < k → ∃ r s, sink d = .ok r ∧ r.body = .ok s)
    (h3 : sink k = .error e) :
    sendJsonToSplunk n sink = (List.range (k + 1), some e) ∧
    ∀ j, k < j → j ∉ (sendJsonToSplunk n sink).1 := by
  have h := sendAux_transport_abort sink n k 0 e h1 (by simpa using h2) (by simpa using h3)
  rw [sendJsonToSplunk, h]
  refine ⟨by rw [List.range_eq_range'], ?_⟩
  intro j hj hmem
  rw [List.mem_range'_1] at hmem
  omega

/-- A sink whose transport fails on the second endpoint. -/
def sinkErr1 : ℕ → Except String HttpResp := fun i =>
  if i = 1 then .error ("boom")
  else .ok { status := 200, body := .ok ("ok") }

/-- Witness for C2 (amended): with a transport failure on the second of
three endpoints, exactly endpoints 0 and 1 are POSTed, the loop panics, and
the third endpoint's event is never sent. -/
theorem c2_amended_witness :
    (1 < 3 ∧ sinkErr1 1 = .error ("boom")) ∧
    sendJsonToSplunk 3 sinkErr1 = (List.range 2, some ("boom")) ∧
    (∀ j, 1 < j → j ∉ (sendJsonToSplunk 3 sinkErr1).1) ∧
    (sendJsonToSplunk 3 sinkErr1).1 = [0, 1] := by
  have hd : ∀ d, d < 1 → ∃ r s, sinkErr1 d = .ok r ∧ r.body = .ok s := by
    intro d hdlt
    have hd0 : d = 0 := by omega
    subst hd0
    exact ⟨{ status := 200, body := .ok ("ok") }, "ok", rfl, rfl⟩
  have h := c2_amended_transport_abort 3 1 sinkErr1 ("boom") (by omega) hd rfl
  exact ⟨⟨by omega, rfl⟩, h.1, h.2, by decide⟩

/-! ## Claims about `main`'s control flow (C3, C4, C5, C9) -/

/-- No attack-engine probe (network activity) appears in the trace. -/
def noRunEvents (t : List Event) : Prop := ∀ u, Event.run u ∉ t

theorem noRunEvents_nil : noRunEvents [] := by
  intro u hu
  simp at hu

/-- The four user-input error cases of the claim: no input source, both
input sources, no output sink, or the selected input record failing to
parse under its claimed encoding. -/
def configErrorCase (fl : Flags) (env : Env) : Prop :=
  (fl.file = none ∧ fl.data = none) ∨
  (fl.file.isSome ∧ fl.data.isSome) ∨
  (fl.output = none ∧ fl.print = false ∧ fl.jsonF = false ∧
    fl.splunk.getD ("") = "") ∨
  (∃ msg, resolveEndpoints fl env = .error msg)

/-- C3: in each of the four configuration-error cases the program exits
fatally (`log.Fatal`/`panic`) with an empty event trace — in particular
before any network activity occurs. -/
theorem c3_config_errors_fatal_before_network (fl : Flags) (env : Env)
    (h : configErrorCase fl env) :
    (runMain fl env).1 = [] ∧ (runMain fl env).2.isSome := by
  unfold runMain
  split
  next => exact ⟨rfl, rfl⟩
  next h1 =>
    split
    next => exact ⟨rfl, rfl⟩
    next h2 =>
      split
      next => exact ⟨rfl, rfl⟩
      next h3 =>
        rcases h with hc | hc | hc | ⟨msg, hmsg⟩
        · exact absurd hc h1
        · exact absurd hc h2
        · exact absurd hc h3
        · rw [hmsg]
          exact ⟨rfl, rfl⟩

/-- A trivial environment: every parser succeeds with an empty result,
every duration parses, the engine and the sink answer uniformly. -/
def envTriv : Env :=
  { parseEndpointsJSON := fun _ => .ok [],
    parseEndpointsYAML := fun _ => .ok [],
    parseJSONString := fun _ => .ok [],
    parseSplunkJSON := fun _ => .ok zeroSplunk,
    parseSplunkYAML := fun _ => .ok zeroSplunk,
    parseDuration := fun _ => some 10,
    attack := fun _ => { requests := 7, latenciesP99 := 5000000 },
    sink := fun _ => .ok { status := 200, body := .ok ("") } }

/-- The flag set with no input source at all (and a print sink). -/
def flNoInput : Flags :=
  { file := none, data := none, output := none, print := true,
    jsonF := false, splunk := none, quiet := false }

/-- Witness for C3: with neither a file nor inline data, the run is fatal
with an empty trace. -/
theorem c3_witness :
    configErrorCase flNoInput envTriv ∧
    (runMain flNoInput envTriv).1 = [] ∧ (runMain flNoInput envTriv).2.isSome :=
  ⟨Or.inl ⟨rfl, rfl⟩,
   c3_config_errors_fatal_before_network flNoInput envTriv (Or.inl ⟨rfl, rfl⟩)⟩

/-- C4: when every duration parses, the query loop invokes the adapter
exactly once per endpoint, sequentially in input order — the trace is one
`run` event per endpoint in input order — and the enriched list preserves
input order with each spec's metrics fully attached (so every later report
emitter observes only fully-populated metrics). -/
theorem c4_sequential_runs_in_order (env : Env) (eps : List endpointDetails)
    (h : ∀ e ∈ eps, (env.parseDuration e.query.duration).isSome) :
    runAll env eps =
      (.ok (eps.map fun e => { e with metrics := env.attack e }),
       eps.map fun e => Event.run e.target.url) := by
  induction eps with
  | nil => rfl
  | cons e rest ih =>
    obtain ⟨d, hd⟩ := Option.isSome_iff_exists.mp (h e (by simp))
    rw [List.map_cons, List.map_cons]
    simp only [runAll, hd]
    rw [ih (fun e' he' => h e' (by simp [he']))]

/-- First concrete endpoint (differs from `ep2` only in URL). -/
def ep1 : endpointDetails :=
  { target := { method := "GET", url := "u1", body := "", header := [] },
    query := defaultQuery, metrics := zeroMetrics }

/-- Second concrete endpoint. -/
def ep2 : endpointDetails :=
  { target := { method := "GET", url := "u2", body := "", header := [] },
    query := defaultQuery, metrics := zeroMetrics }

/-- Witness for C4: with two endpoints identical except URL, the adapter is
invoked exactly twice, in input order, and the enriched list preserves the
order with metrics attached. -/
theorem c4_witness :
    (∀ e ∈ [ep1, ep2], (envTriv.parseDuration e.query.duration).isSome) ∧
    runAll envTriv [ep1, ep2] =
      (.ok [{ ep1 with metrics := envTriv.attack ep1 },
            { ep2 with metrics := envTriv.attack ep2 }],
       [Event.run ("u1"), Event.run ("u2")]) :=
  ⟨by decide, (c4_sequential_runs_in_order envTriv [ep1, ep2] (by decide)).trans rfl⟩

theorem durationCheck_fails (env : Env) (eps : List endpointDetails)
    (h : ∃ e ∈ eps, env.parseDuration e.query.duration = none) :
    ∃ msg, durationCheck env eps = some msg := by
  induction eps with
  | nil => simp at h
  | cons e rest ih =>
    rcases h with ⟨e', he', hnone⟩
    rcases List.mem_cons.mp he' with rfl | hmem
    · exact ⟨"time: invalid duration", by simp [durationCheck, hnone]⟩
    · cases hd : env.parseDuration e.query.duration with
      | none => exact ⟨"time: invalid duration", by simp [durationCheck, hd]⟩
      | some d =>
        obtain ⟨msg, hm⟩ := ih ⟨e', hmem, hnone⟩
        exact ⟨msg, by simp [durationCheck, hd, hm]⟩

/-- C5: if the resolved endpoint list contains any spec whose duration
string fails to parse, the program terminates fatally and the trace
contains no `run` event at all — no endpoint (not even an earlier one with
a valid duration) performs network activity. -/
theorem c5_bad_duration_fatal_before_runs (fl : Flags) (env : Env)
    (eps : List endpointDetails)
    (h1 : resolveEndpoints fl env = .ok eps)
    (h2 : ∃ e ∈ eps, env.parseDuration e.query.duration = none) :
    noRunEvents (runMain fl env).1 ∧ (runMain fl env).2.isSome := by
  unfold runMain
  split
  next => exact ⟨noRunEvents_nil, rfl⟩
  next =>
    split
    next => exact ⟨noRunEvents_nil, rfl⟩
    next =>
      split
      next => exact ⟨noRunEvents_nil, rfl⟩
      next =>
        split
        next => exact ⟨noRunEvents_nil, rfl⟩
        next eps' heq =>
          have heps : eps' = eps := by
            rw [h1] at heq
            injection heq with h
            exact h.symm
          subst heps
          split
          next => exact ⟨noRunEvents_nil, rfl⟩
          next =>
            obtain ⟨msg, hm⟩ := durationCheck_fails env eps' h2
            rw [hm]
            exact ⟨noRunEvents_nil, rfl⟩

/-- An endpoint whose duration string does not parse. -/
def epBad : endpointDetails :=
  { target := { method := "GET", url := "u1", body := "", header := [] },
    query := { defaultQuery with duration := "bogus" }, metrics := zeroMetrics }

/-- An environment whose inline-JSON parser yields `epBad` (preceded by a
valid endpoint) and whose duration parser accepts only "10s". -/
def envBad : Env :=
  { envTriv with
    parseJSONString := fun _ => .ok [ep1, epBad],
    parseDuration := fun s => if s = "10s" then some 10 else none }

/-- Inline-data flags (with a print sink). -/
def flData : Flags :=
  { file := none, data := some ("x"), output := none, print := true,
    jsonF := false, splunk := none, quiet := false }

/-- Witness for C5: a list whose second spec has the malformed duration is
fatal with no `run` event — the first spec's valid duration does not let it
probe first. -/
theorem c5_witness :
    (resolveEndpoints flData envBad = .ok [ep1, epBad] ∧
      envBad.parseDuration epBad.query.duration = none) ∧
    (noRunEvents (runMain flData envBad).1 ∧ (runMain flData envBad).2.isSome) ∧
    runMain flData envBad = ([], some ("time: invalid duration")) :=
  ⟨⟨rfl, rfl⟩,
   c5_bad_duration_fatal_before_runs flData envBad [ep1, epBad] rfl
     ⟨epBad, by simp, rfl⟩,
   by decide⟩

/-- C9: when the configuration file's extension is none of `.json`, `.yml`,
`.yaml` (and the input/sink checks pass and the Splunk settings resolve),
the run is NOT a configuration error: the file is never parsed, the
endpoint list stays empty, no network probe happens, and every requested
report is still emitted (over zero endpoints). -/
theorem c9_unknown_extension_no_error (fl : Flags) (env : Env) (f : String)
    (h1 : fl.file = some f) (h2 : fl.data = none)
    (h3 : goExt f ≠ ".json" ∧ goExt f ≠ ".yml" ∧ goExt f ≠ ".yaml")
    (h4 : ¬(fl.output = none ∧ fl.print = false ∧ fl.jsonF = false ∧
      fl.splunk.getD ("") = ""))
    (h5 : ∃ ss, resolveSplunk fl env = .ok ss) :
    resolveEndpoints fl env = .ok [] ∧
    (runMain fl env).2 = none ∧
    noRunEvents (runMain fl env).1 ∧
    (fl.print = true → Event.printText ∈ (runMain fl env).1) ∧
    (∀ p, fl.output = some p → Event.createPDF p ∈ (runMain fl env).1) ∧
    (fl.jsonF = true → Event.printJson ∈ (runMain fl env).1) := by
  obtain ⟨ss, hss⟩ := h5
  have hre : resolveEndpoints fl env = .ok [] := by
    simp only [resolveEndpoints, h1]
    rw [if_neg h3.1, if_neg (not_or.mpr ⟨h3.2.1, h3.2.2⟩)]
  have hmain : runMain fl env = emitters fl env [] := by
    unfold runMain
    rw [if_neg (by simp [h1]), if_neg (by simp [h2]), if_neg h4, hre, hss]
    rfl
  refine ⟨hre, ?_, ?_, ?_, ?_, ?_⟩
  · rw [hmain]
    unfold emitters
    rcases fl.splunk with _ | sp <;> simp [sendJsonToSplunk, sendAux]
  · intro u hu
    rw [hmain] at hu
    by_cases hp : fl.print <;> rcases ho : fl.output with _ | p <;>
      by_cases hj : fl.jsonF <;> rcases hsp : fl.splunk with _ | sp <;>
      simp [emitters, hp, ho, hj, hsp, sendJsonToSplunk, sendAux] at hu
  · intro hp
    rw [hmain]
    rcases ho : fl.output with _ | p <;> by_cases hj : fl.jsonF <;>
      rcases hsp : fl.splunk with _ | sp <;>
      simp [emitters, hp, ho, hj, hsp, sendJsonToSplunk, sendAux]
  · intro p hpo
    rw [hmain]
    by_cases hp : fl.print <;> by_cases hj : fl.jsonF <;>
      rcases hsp : fl.splunk with _ | sp <;>
      simp [emitters, hp, hpo, hj, hsp, sendJsonToSplunk, sendAux]
  · intro hj
    rw [hmain]
    by_cases hp : fl.print <;> rcases ho : fl.output with _ | p <;>
      rcases hsp : fl.splunk with _ | sp <;>
      simp [emitters, hp, ho, hj, hsp, sendJsonToSplunk, sendAux]

/-- Flags selecting a file with an unrecognized extension, with print and
PDF sinks requested. -/
def flTxt : Flags :=
  { file := some ("endpoints.txt"), data := none, output := some ("out.pdf"),
    print := true, jsonF := false, splunk := none, quiet := false }

/-- Witness for C9: with `endpoints.txt` as input, nothing is fatal, no
probe runs, the list is empty, and the requested text and PDF reports are
emitted. -/
theorem c9_witness :
    (flTxt.file = some ("endpoints.txt") ∧ flTxt.data = none ∧
      goExt ("endpoints.txt") ≠ ".json" ∧
      goExt ("endpoints.txt") ≠ ".yml" ∧ goExt ("endpoints.txt") ≠ ".yaml") ∧
    (resolveEndpoints flTxt envTriv = .ok [] ∧
      (runMain flTxt envTriv).2 = none ∧
      noRunEvents (runMain flTxt envTriv).1 ∧
      (flTxt.print = true → Event.printText ∈ (runMain flTxt envTriv).1) ∧
      (∀ p, flTxt.output = some p →
        Event.createPDF p ∈ (runMain flTxt envTriv).1) ∧
      (flTxt.jsonF = true → Event.printJson ∈ (runMain flTxt envTriv).1)) ∧
    runMain flTxt envTriv = ([Event.printText, Event.createPDF ("out.pdf")], none) := by
  refine ⟨⟨rfl, rfl, by decide, by decide, by decide⟩, ?_, by decide⟩
  exact c9_unknown_extension_no_error flTxt envTriv ("endpoints.txt") rfl rfl
    ⟨by decide, by decide, by decide⟩ (by simp [flTxt]) ⟨zeroSplunk, rfl⟩

/-! ## Claim C6 — malformed histogram rows are silently skipped -/

theorem rowAction_write (pf : List Char → Option ℚ) (row : List Char)
    (h4 : (goFields row).length = 4) {x y : ℚ}
    (hx : pf ((goFields row).getD 3 []) = some x)
    (hy : pf ((goFields row).getD 0 []) = some y) :
    rowAction pf row = RowAction.write x y := by
  unfold rowAction
  rw [if_pos h4, hx, hy]

/-- C6: in the percentile-graph transform, every row whose whitespace-split
field count is not exactly 4 is silently skipped (it triggers neither a
write nor a `log.Fatal`), and — provided the well-formed 4-field rows
parse — the render runs to completion over the whole row list instead of
aborting, producing one (possibly empty) slot per row. -/
theorem c6_malformed_rows_skipped (pf : List Char → Option ℚ)
    (rows : List (List Char))
    (h : ∀ r ∈ rows, (goFields r).length = 4 →
      (pf ((goFields r).getD 3 [])).isSome ∧ (pf ((goFields r).getD 0 [])).isSome) :
    renderRows pf rows = some (rows.map (writeOf pf)) ∧
    ∀ r ∈ rows, (goFields r).length ≠ 4 →
      rowAction pf r = RowAction.skip ∧ writeOf pf r = none := by
  constructor
  · induction rows with
    | nil => rfl
    | cons r rest ih =>
      have hrest := ih (fun r' h' => h r' (by simp [h']))
      cases hra : rowAction pf r with
      | fatal =>
        exfalso
        by_cases h4 : (goFields r).length = 4
        · obtain ⟨x, hx⟩ := Option.isSome_iff_exists.mp (h r (by simp) h4).1
          obtain ⟨y, hy⟩ := Option.isSome_iff_exists.mp (h r (by simp) h4).2
          rw [rowAction_write pf r h4 hx hy] at hra
          exact RowAction.noConfusion hra
        · rw [show rowAction pf r = RowAction.skip from by
            unfold rowAction; rw [if_neg h4]] at hra
          exact RowAction.noConfusion hra
      | skip => simp [renderRows, hra, hrest, writeOf]
      | write x y => simp [renderRows, hra, hrest, writeOf]
  · intro r hr h4
    have hs : rowAction pf r = RowAction.skip := by
      unfold rowAction
      simp [h4]
    exact ⟨hs, by simp [writeOf, hs]⟩

/-- A model of `strconv.ParseFloat` that accepts everything. -/
def pfOne : List Char → Option ℚ := fun _ => some 1

/-- A well-formed 4-field histogram row. -/
def rowGood : List Char := "1 2 3 4".toList

/-- A malformed row (wrong field count). -/
def rowBad : List Char := "oops".toList

/-- Witness for C6: a row list containing a malformed row renders to
completion, with the malformed row skipped and the well-formed one
written. -/
theorem c6_witness :
    (∀ r ∈ [rowGood, rowBad], (goFields r).length = 4 →
      (pfOne ((goFields r).getD 3 [])).isSome ∧
      (pfOne ((goFields r).getD 0 [])).isSome) ∧
    (renderRows pfOne [rowGood, rowBad] =
        some ([rowGood, rowBad].map (writeOf pfOne)) ∧
      ∀ r ∈ [rowGood, rowBad], (goFields r).length ≠ 4 →
        rowAction pfOne r = RowAction.skip ∧ writeOf pfOne r = none) ∧
    renderRows pfOne [rowGood, rowBad] = some [some (1, 1), none] :=
  ⟨by decide, c6_malformed_rows_skipped pfOne [rowGood, rowBad] (by decide),
   by decide⟩

/-! ## Claim C10 — every `points[i][j]` write is in bounds -/

theorem splitNl_ne_nil : ∀ cs, splitNl cs ≠ [] := by
  intro cs
  induction cs with
  | nil => simp [splitNl]
  | cons c rest ih =>
    unfold splitNl
    by_cases h : c = '\n'
    · simp [h]
    · simp only [if_neg h]
      cases hs : splitNl rest with
      | nil => simp
      | cons hh tt => simp

theorem splitNl_append_nl : ∀ cs, splitNl (cs ++ ['\n']) = splitNl cs ++ [[]] := by
  intro cs
  induction cs with
  | nil => rfl
  | cons c rest ih =>
    cases hs : splitNl rest with
    | nil => exact absurd hs (splitNl_ne_nil rest)
    | cons hh tt =>
      by_cases h : c = '\n'
      · simp [splitNl, h, ih]
      · simp [splitNl, h, ih, hs]

theorem getD_append_length {α : Type} : ∀ (R : List α) (x d : α),
    (R ++ [x]).getD R.length d = x := by
  intro R x d
  induction R with
  | nil => rfl
  | cons a R ih => simp

/-- C10: for every reporter output — every buffer string that ends with a
newline, as each line the HDR plot reporter emits does — each row of the
post-header row list whose whitespace-split field count is exactly 4 has
index strictly below the allocated point-slot count `len(rows) - 1`, so
every `points[i][j]` write is in bounds; equivalently, the final split row
(the empty string after the trailing newline) never has 4 fields. -/
theorem c10_writes_in_bounds (s s' : List Char) (h : s = s' ++ ['\n']) :
    ∀ j, j < (graphRowsOf s).length →
      (goFields ((graphRowsOf s).getD j [])).length = 4 →
      j < allocLen s := by
  subst h
  have hpos : 1 ≤ (splitNl s').length :=
    List.length_pos.mpr (splitNl_ne_nil s')
  have hrows : graphRowsOf (s' ++ ['\n']) = (splitNl s').drop 1 ++ [[]] := by
    unfold graphRowsOf
    rw [splitNl_append_nl]
    exact List.drop_append_of_le_length hpos
  intro j hj h4
  rw [hrows] at hj h4
  unfold allocLen
  rw [hrows]
  simp only [List.length_append, List.length_cons, List.length_nil] at hj ⊢
  rcases Nat.lt_succ_iff_lt_or_eq.mp (by omega : j < ((splitNl s').drop 1).length + 1)
    with hlt | hEq
  · omega
  · exfalso
    rw [hEq, getD_append_length] at h4
    simp [goFields, fieldsAux] at h4

/-- Witness for C10: the reporter-shaped buffer `"h\na b c d\n"` has one
4-field row at index 0, strictly below the allocated length 1. -/
theorem c10_witness :
    ("h\na b c d\n".toList = "h\na b c d".toList ++ ['\n']) ∧
    0 < (graphRowsOf ("h\na b c d\n".toList)).length ∧
    (goFields ((graphRowsOf ("h\na b c d\n".toList)).getD 0 [])).length = 4 ∧
    0 < allocLen ("h\na b c d\n".toList) :=
  ⟨by decide, by decide, by decide,
   c10_writes_in_bounds ("h\na b c d\n".toList) ("h\na b c d".toList)
     (by decide) 0 (by decide) (by decide)⟩

/-! ## Claim C8 — the Y-axis tick generator -/

theorem mul50_le_iff_le_floor (max : ℚ) (hmax : 0 ≤ max) (k : ℕ) :
    ((50 * k : ℕ) : ℚ) ≤ max ↔ k ≤ Nat.floor (max / 50) := by
  rw [Nat.le_floor_iff (div_nonneg hmax (by norm_num))]
  push_cast
  rw [le_div_iff₀ (by norm_num : (0 : ℚ) < 50)]
  constructor <;> intro h <;> linarith

theorem ticksLoop_eq (max : ℚ) (hmax : 0 ≤ max) :
    ∀ (m k : ℕ), Nat.floor (max / 50) + 1 - k ≤ m →
      ticksLoop max (50 * k) m =
        (List.range' k (Nat.floor (max / 50) + 1 - k)).map yTickAt := by
  intro m
  induction m with
  | zero =>
    intro k hk
    have h0 : Nat.floor (max / 50) + 1 - k = 0 := by omega
    rw [h0]
    rfl
  | succ m ih =>
    intro k hk
    by_cases hle : ((50 * k : ℕ) : ℚ) ≤ max
    · have hkn : k ≤ Nat.floor (max / 50) :=
        (mul50_le_iff_le_floor max hmax k).mp hle
      have hsub : Nat.floor (max / 50) + 1 - k = (Nat.floor (max / 50) - k) + 1 := by
        omega
      rw [hsub]
      unfold ticksLoop
      rw [if_pos hle]
      have h50 : 50 * k + 50 = 50 * (k + 1) := by ring
      rw [h50, ih (k + 1) (by omega)]
      have hsub2 : Nat.floor (max / 50) + 1 - (k + 1) = Nat.floor (max / 50) - k := by
        omega
      rw [hsub2]
      simp [List.range', yTickAt]
    · have hkn : ¬ k ≤ Nat.floor (max / 50) := fun hc =>
        hle ((mul50_le_iff_le_floor max hmax k).mpr hc)
      have h0 : Nat.floor (max / 50) + 1 - k = 0 := by omega
      rw [h0]
      unfold ticksLoop
      rw [if_neg hle]
      rfl

/-- C8: for every axis maximum `max ≥ 0`, `customYTicks.Ticks` emits exactly
one tick at each multiple of 50 from 0 up to and including `max` (value
`50*j`, label `"<50*j>ms"`, for every `j ≤ ⌊max/50⌋`), followed by the one
additional tick at exactly 30 labeled as the real-time threshold. -/
theorem c8_yticks_every_50_plus_realtime (max : ℚ) (hmax : 0 ≤ max) :
    customYTicksGo max =
      (List.range (Nat.floor (max / 50) + 1)).map yTickAt ++
        [{ value := 30, label := "Real-Time -- 30ms" }] := by
  unfold customYTicksGo
  have hnum : max ≤ ((max.num.toNat : ℕ) : ℚ) := by
    have hd : (1 : ℚ) ≤ (max.den : ℚ) := by
      exact_mod_cast Nat.one_le_iff_ne_zero.mpr max.den_nz
    have hn : (0 : ℚ) ≤ (max.num : ℚ) := by
      exact_mod_cast Rat.num_nonneg.mpr hmax
    calc max = (max.num : ℚ) / max.den := (Rat.num_div_den max).symm
      _ ≤ (max.num : ℚ) / 1 := by
          exact div_le_div_of_nonneg_left hn one_pos hd
      _ = (max.num : ℚ) := div_one _
      _ = ((max.num.toNat : ℕ) : ℚ) := by
          have hge : (0 : ℤ) ≤ max.num := Rat.num_nonneg.mpr hmax
          rw [show ((max.num.toNat : ℕ) : ℚ) = ((max.num.toNat : ℤ) : ℚ) by
              push_cast; rfl,
            Int.toNat_of_nonneg hge]
  have hfuel : Nat.floor (max / 50) + 1 - 0 ≤ max.num.toNat + 2 := by
    have h1 : Nat.floor (max / 50) ≤ Nat.floor max :=
      Nat.floor_mono (div_le_self hmax (by norm_num))
    have h2 : Nat.floor max ≤ max.num.toNat := by
      have := Nat.floor_mono hnum
      rwa [Nat.floor_natCast] at this
    omega
  have h := ticksLoop_eq max hmax (max.num.toNat + 2) 0 hfuel
  rw [Nat.mul_zero] at h
  rw [h, Nat.sub_zero, List.range_eq_range']
  rfl

/-- Witness for C8: at `max = 120` the ticks are 0ms, 50ms, 100ms plus the
real-time tick at 30. -/
theorem c8_witness :
    (0 : ℚ) ≤ 120 ∧
    customYTicksGo 120 =
      (List.range (Nat.floor ((120 : ℚ) / 50) + 1)).map yTickAt ++
        [{ value := 30, label := "Real-Time -- 30ms" }] ∧
    customYTicksGo 120 =
      [{ value := 0, label := "0ms" }, { value := 50, label := "50ms" },
       { value := 100, label := "100ms" },
       { value := 30, label := "Real-Time -- 30ms" }] :=
  ⟨by norm_num, c8_yticks_every_50_plus_realtime 120 (by norm_num), by decide⟩

end Rtapi
